import Mathlib

/-!
Shallow embedding of the autoencounter combat engine (src/entity.py,
src/board.py, src/game.py).  Python dictionaries are modelled as
Option-valued functions, the boolean occupancy grid as a `Finset` of
coordinates, dice rolls as explicit integer parameters, and Python
`assert` failures / raised exceptions as `none` results of
Option-returning operations.
-/

namespace AutoEnc

/-- An entity (src/entity.py, class Entity).  `kind` stands for the concrete
Python class of the object (Player / Enemy); `ally` in the source compares
`type(e1) == type(e2)`.  `max_hp` is fixed to the constructor's `hp`. -/
structure Entity where
  kind : ℕ
  amod : ℤ
  dmod : ℤ
  hp : ℤ
  max_hp : ℤ
  ac : ℤ
  potions : ℤ
  ranged : Bool
  alive : Bool
deriving DecidableEq, Repr

/-- Entity constructor (src/entity.py lines 39-49): `max_hp` is set from `hp`
and `alive` starts as `True`. -/
def Entity.create (kind : ℕ) (amod dmod hp ac potions : ℤ) (ranged : Bool) : Entity :=
  { kind := kind, amod := amod, dmod := dmod, hp := hp, max_hp := hp,
    ac := ac, potions := potions, ranged := ranged, alive := true }

/-- src/entity.py lines 51-57. -/
def Entity.is_alive (e : Entity) : Bool := e.alive

/-- src/entity.py lines 75-82: `self.hp -= points; self.alive = self.hp > 0`. -/
def Entity.take_damage (e : Entity) (points : ℤ) : Entity :=
  { e with hp := e.hp - points, alive := decide (0 < e.hp - points) }

/-- src/entity.py lines 84-93: heal only applies while alive, capped at max_hp. -/
def Entity.heal (e : Entity) (points : ℤ) : Entity :=
  if e.alive then { e with hp := min e.max_hp (e.hp + points) } else e

/-- src/entity.py lines 95-107: consume a potion and report the rolled points
(`roll2d4` is the explicit 2d4 dice outcome); with no potions, return 0 and
change nothing. -/
def Entity.use_potion (e : Entity) (roll2d4 : ℤ) : Entity × ℤ :=
  if 0 < e.potions then ({ e with potions := e.potions - 1 }, roll2d4 + 2) else (e, 0)

/-- src/entity.py lines 59-65: attack score is `d20 + amod` (the d20 outcome is
the explicit parameter). -/
def Entity.roll_attack (e : Entity) (d20 : ℤ) : ℤ := d20 + e.amod

/-- src/entity.py lines 67-73: damage is `2d6 + dmod` (the 2d6 outcome is the
explicit parameter). -/
def Entity.roll_damage (e : Entity) (twoD6 : ℤ) : ℤ := twoD6 + e.dmod

/-- src/entity.py lines 143-144: two entities are allies iff they have the same
concrete type. -/
def ally (e1 e2 : Entity) : Bool := e1.kind = e2.kind

/-- A damage-or-heal event applied to an entity (for the hp invariant claim). -/
inductive EOp where
  | damage (points : ℤ)
  | heal (points : ℤ)
deriving DecidableEq, Repr

/-- The point value carried by an entity event. -/
def EOp.points : EOp → ℤ
  | .damage p => p
  | .heal p => p

/-- Apply one event to an entity via the source operations. -/
def applyEOp (e : Entity) : EOp → Entity
  | .damage p => e.take_damage p
  | .heal p => e.heal p

/-- Apply a sequence of events to an entity. -/
def applyEOps (e : Entity) (ops : List EOp) : Entity := ops.foldl applyEOp e

/-- The grid board (src/board.py, class Board).  `grid` is the set of cells the
boolean occupancy array marks `True`; `ents` models the dict
`(row, col) -> eid`; `loc` models the dict `eid -> (row, col)`. -/
structure Board where
  rows : ℤ
  cols : ℤ
  grid : Finset (ℤ × ℤ)
  ents : ℤ × ℤ → Option ℤ
  loc : ℤ → Option (ℤ × ℤ)

/-- A freshly constructed board (src/board.py lines 17-21). -/
def Board.empty (rows cols : ℤ) : Board :=
  { rows := rows, cols := cols, grid := ∅, ents := fun _ => none, loc := fun _ => none }

/-- src/board.py lines 75-85. -/
def Board.inbounds (b : Board) (x y : ℤ) : Bool :=
  decide (0 ≤ x) && decide (x < b.rows) && decide (0 ≤ y) && decide (y < b.cols)

/-- src/board.py lines 23-34: `free` asserts `inbounds` (modelled by `none`)
and otherwise reports that the cell is unoccupied. -/
def Board.free (b : Board) (x y : ℤ) : Option Bool :=
  if b.inbounds x y = true then some (decide ((x, y) ∉ b.grid)) else none

/-- src/board.py lines 49-61: add an entity, with the asserts (`free(x, y)`,
which itself asserts `inbounds`) modelled as `none`. -/
def Board.add (b : Board) (eid x y : ℤ) : Option Board :=
  if b.inbounds x y = false then none
  else if (x, y) ∈ b.grid then none
  else some { rows := b.rows, cols := b.cols, grid := insert (x, y) b.grid,
              ents := fun p => if p = (x, y) then some eid else b.ents p,
              loc := fun e => if e = eid then some (x, y) else b.loc e }

/-- src/board.py lines 63-73: remove an entity; the assert `eid in self.loc`
is modelled as `none`. -/
def Board.remove (b : Board) (eid : ℤ) : Option Board :=
  match b.loc eid with
  | none => none
  | some p =>
    some { rows := b.rows, cols := b.cols, grid := b.grid.erase p,
           ents := fun q => if q = p then none else b.ents q,
           loc := fun e => if e = eid then none else b.loc e }

/-- src/board.py lines 87-110: move the entity at `(x, y)` to `(xf, yf)`; the
five asserts are modelled as `none`. -/
def Board.move (b : Board) (x y xf yf : ℤ) : Option Board :=
  if b.inbounds x y = false then none
  else if b.inbounds xf yf = false then none
  else match b.ents (x, y) with
  | none => none
  | some eid =>
    if (x, y) ∉ b.grid then none
    else if (xf, yf) ∈ b.grid then none
    else some { rows := b.rows, cols := b.cols,
                grid := insert (xf, yf) (b.grid.erase (x, y)),
                ents := fun p => if p = (xf, yf) then some eid
                                 else if p = (x, y) then none else b.ents p,
                loc := fun e => if e = eid then some (xf, yf) else b.loc e }

/-- src/board.py lines 112-123: lookup of an entity's cell (the assert is the
`none` case of the returned Option). -/
def Board.query (b : Board) (eid : ℤ) : Option (ℤ × ℤ) := b.loc eid

/-- src/board.py lines 139-148. -/
def Board.belongs (b : Board) (eid : ℤ) : Bool := (b.loc eid).isSome

/-- src/board.py lines 150-177: adjacency.  The source asserts `eid1 in
self.loc` (modelled as `none`), returns `False` when `eid2` is off the board,
`True` for the on-board self case, and otherwise tests Manhattan distance 1. -/
def Board.near (b : Board) (eid1 eid2 : ℤ) : Option Bool :=
  match b.loc eid1 with
  | none => none
  | some p1 =>
    match b.loc eid2 with
    | none => some false
    | some p2 =>
      if eid1 = eid2 then some true
      else some (decide ((p1.1 + 1 = p2.1 ∧ p1.2 = p2.2) ∨
                         (p1.1 - 1 = p2.1 ∧ p1.2 = p2.2) ∨
                         (p1.1 = p2.1 ∧ p1.2 + 1 = p2.2) ∨
                         (p1.1 = p2.1 ∧ p1.2 - 1 = p2.2)))

/-- A board operation (the three mutators of src/board.py), for the
board-invariant claim. -/
inductive BOp where
  | add (eid x y : ℤ)
  | remove (eid : ℤ)
  | move (x y xf yf : ℤ)
deriving DecidableEq, Repr

/-- The preconditions the source actually asserts for each mutator
(src/board.py lines 57-58, 69, 99-103), as a boolean test. -/
def BOp.preCode (b : Board) : BOp → Bool
  | .add _ x y => b.inbounds x y && decide ((x, y) ∉ b.grid)
  | .remove eid => (b.loc eid).isSome
  | .move x y xf yf =>
    b.inbounds x y && b.inbounds xf yf && (b.ents (x, y)).isSome &&
    decide ((x, y) ∈ b.grid) && decide ((xf, yf) ∉ b.grid)

/-- The asserted preconditions strengthened with the condition that an added
handle is not already on the board (guaranteed by Game.add's registry check,
src/game.py line 67, but not asserted by Board.add itself). -/
def BOp.pre (b : Board) : BOp → Bool
  | .add eid x y => BOp.preCode b (.add eid x y) && (b.loc eid).isNone
  | op => BOp.preCode b op

/-- Apply a board operation; outside its asserted preconditions the Option
result is `none` and we keep the board (that branch is unreachable whenever
the preconditions hold). -/
def BOp.apply (b : Board) : BOp → Board
  | .add eid x y => (b.add eid x y).getD b
  | .remove eid => (b.remove eid).getD b
  | .move x y xf yf => (b.move x y xf yf).getD b

/-- Run a sequence of board operations. -/
def applyBOps (b : Board) : List BOp → Board
  | [] => b
  | op :: ops => applyBOps (op.apply b) ops

/-- All operations in the sequence satisfy the code's asserted preconditions
at the state where they execute. -/
def presHoldCode (b : Board) : List BOp → Bool
  | [] => true
  | op :: ops => op.preCode b && presHoldCode (op.apply b) ops

/-- All operations satisfy the strengthened preconditions (asserted ones plus
freshness of added handles) at the state where they execute. -/
def presHold (b : Board) : List BOp → Bool
  | [] => true
  | op :: ops => op.pre b && presHold (op.apply b) ops

/-- Number of `add` operations in a sequence. -/
def addCount : List BOp → ℕ
  | [] => 0
  | .add _ _ _ :: ops => addCount ops + 1
  | _ :: ops => addCount ops

/-- Number of `remove` operations in a sequence. -/
def removeCount : List BOp → ℕ
  | [] => 0
  | .remove _ :: ops => removeCount ops + 1
  | _ :: ops => removeCount ops

/-- The board representation invariant: the two maps are exact inverses, the
occupancy grid marks exactly the cells the `ents` map knows, and every stored
coordinate is in bounds. -/
def BInv (b : Board) : Prop :=
  (∀ e p, b.loc e = some p ↔ b.ents p = some e) ∧
  (∀ p, p ∈ b.grid ↔ (b.ents p).isSome) ∧
  (∀ e p, b.loc e = some p → b.inbounds p.1 p.2 = true)

/-- The game engine state (src/game.py, class Game).  `agents` models the dict
`id(agent) -> agent` (the store holding each entity's mutable state);
`agentsList` is the registration order, so `agent_index` is a position in it
and `index_to_agent` is positional lookup; `order` is the initiative rotation
and `dead` the set of killed handles, both by handle. -/
structure Game where
  rows : ℤ
  cols : ℤ
  board : Board
  agents : ℤ → Option Entity
  agentsList : List ℤ
  order : List ℤ
  dead : List ℤ
  initialPos : ℤ → Option (ℤ × ℤ)
  labelMap : ℤ → Option String

/-- A freshly constructed game (src/game.py lines 23-45). -/
def Game.empty (rows cols : ℤ) : Game :=
  { rows := rows, cols := cols, board := Board.empty rows cols,
    agents := fun _ => none, agentsList := [], order := [], dead := [],
    initialPos := fun _ => none, labelMap := fun _ => none }

/-- src/game.py line 38: number of registered agents. -/
def Game.n_agents (g : Game) : ℕ := g.agentsList.length

/-- src/game.py line 36: `index_to_agent` maps a stable index to the agent
registered at that slot. -/
def Game.index_to_agent (g : Game) (i : ℕ) : Option ℤ := g.agentsList[i]?

/-- Write back one entity's mutated state into the registry (Python mutates
the shared object in place). -/
def Game.setAgent (g : Game) (eid : ℤ) (ent : Entity) : Game :=
  { g with agents := fun e => if e = eid then some ent else g.agents e }

/-- src/game.py lines 54-74 (Game.add): register an entity.  The asserts
(2-character label, entity not yet registered) and Board.add's asserts are
modelled as `none`. -/
def Game.add (g : Game) (eid : ℤ) (ent : Entity) (x y : ℤ) (label : String) : Option Game :=
  if label.length ≠ 2 then none
  else if eid ∈ g.agentsList then none
  else match g.board.add eid x y with
  | none => none
  | some b2 =>
    some { g with
           board := b2
           agents := fun e => if e = eid then some ent else g.agents e
           agentsList := g.agentsList ++ [eid]
           initialPos := fun e => if e = eid then some (x, y) else g.initialPos e
           labelMap := fun e => if e = eid then some label else g.labelMap e }

/-- src/entity.py line 144 lifted to handles: the faction tag (concrete type)
of the entity registered under a handle. -/
def Game.kindOf (g : Game) (e : ℤ) : Option ℕ := (g.agents e).map Entity.kind

/-- `ally` on handles, as used in the termination check. -/
def Game.allyIds (g : Game) (x y : ℤ) : Bool := g.kindOf x = g.kindOf y

/-- src/game.py line 114: the termination flag computed by Game.step,
`all(ally(x, y) for x in self.order for y in self.order)`. -/
def Game.doneFlag (g : Game) : Bool :=
  g.order.all fun x => g.order.all fun y => g.allyIds x y

/-- src/game.py lines 123-167 (Game.handle_attack).  `action` is the decoded
target index, `d20` the attack die outcome, `twoD6` the damage dice outcome.
`none` models a raised exception (missing dict key, assert in Board.near,
`list.remove` on an absent element, assert in Board.remove). -/
def Game.handle_attack (g : Game) (agentEid : ℤ) (action : ℕ) (d20 twoD6 : ℤ) :
    Option (Game × ℤ) :=
  match g.index_to_agent action with
  | none => none
  | some targetEid =>
  match g.agents agentEid, g.agents targetEid with
  | some agent, some target =>
    let hit := decide (target.ac ≤ agent.roll_attack d20)
    match (if agent.ranged then some true else g.board.near agentEid targetEid) with
    | none => none
    | some reachval =>
      let damage := agent.roll_damage twoD6
      let isSelf := targetEid = agentEid
      let isAlly := ally agent target
      if targetEid ∈ g.dead then some (g, -1)
      else if reachval = false then some (g, -1)
      else if hit then
        let target2 := target.take_damage damage
        let g2 := g.setAgent targetEid target2
        let reward : ℤ := if isSelf then -2 * damage else if isAlly then -damage else damage
        if target2.is_alive = false then
          if targetEid ∈ g2.order then
            match g2.board.remove targetEid with
            | none => none
            | some b2 =>
              some ({ g2 with
                      dead := targetEid :: g2.dead
                      order := g2.order.erase targetEid
                      board := b2 }, reward * 2)
          else none
        else some (g2, reward)
      else some (g, -1)
  | _, _ => none

/-- src/game.py lines 169-205 (Game.handle_heal).  `action` is the decoded
target index, `roll2d4` the potion dice outcome.  The potion is consumed by
`use_potion` before the zero-points / dead-target / unreachable checks; the
target's fields are re-read from the store after that write-back (the Python
objects are aliased). -/
def Game.handle_heal (g : Game) (agentEid : ℤ) (action : ℕ) (roll2d4 : ℤ) :
    Option (Game × ℤ) :=
  match g.index_to_agent action with
  | none => none
  | some targetEid =>
  match g.agents agentEid, g.agents targetEid with
  | some agent, some target =>
    match g.board.near agentEid targetEid with
    | none => none
    | some reachval =>
      let up := agent.use_potion roll2d4
      let points := up.2
      let g2 := g.setAgent agentEid up.1
      let isSelf := targetEid = agentEid
      let isAlly := ally agent target
      match g2.agents targetEid with
      | none => none
      | some target2 =>
        if points = 0 then some (g2, -1)
        else if target2.is_alive = false then some (g2, -1)
        else if reachval = false then some (g2, -1)
        else
          let reward := if isSelf then points else if isAlly then points else -points
          some (g2.setAgent targetEid (target2.heal points), reward)
  | _, _ => none

/-- src/game.py lines 207-218 (Game.handle_up): move one row up if the
destination is in bounds and free, else reward -1.  The `free` call's
inbounds assert is guarded by the short-circuit conjunction. -/
def Game.handle_up (g : Game) (agentEid : ℤ) : Option (Game × ℤ) :=
  match g.board.loc agentEid with
  | none => none
  | some (x, y) =>
    if g.board.inbounds (x - 1) y = true ∧ (x - 1, y) ∉ g.board.grid then
      match g.board.move x y (x - 1) y with
      | none => none
      | some b2 => some ({ g with board := b2 }, 0)
    else some (g, -1)

/-- src/game.py lines 220-231 (Game.handle_down). -/
def Game.handle_down (g : Game) (agentEid : ℤ) : Option (Game × ℤ) :=
  match g.board.loc agentEid with
  | none => none
  | some (x, y) =>
    if g.board.inbounds (x + 1) y = true ∧ (x + 1, y) ∉ g.board.grid then
      match g.board.move x y (x + 1) y with
      | none => none
      | some b2 => some ({ g with board := b2 }, 0)
    else some (g, -1)

/-- src/game.py lines 233-244 (Game.handle_left). -/
def Game.handle_left (g : Game) (agentEid : ℤ) : Option (Game × ℤ) :=
  match g.board.loc agentEid with
  | none => none
  | some (x, y) =>
    if g.board.inbounds x (y - 1) = true ∧ (x, y - 1) ∉ g.board.grid then
      match g.board.move x y x (y - 1) with
      | none => none
      | some b2 => some ({ g with board := b2 }, 0)
    else some (g, -1)

/-- src/game.py lines 246-257 (Game.handle_right). -/
def Game.handle_right (g : Game) (agentEid : ℤ) : Option (Game × ℤ) :=
  match g.board.loc agentEid with
  | none => none
  | some (x, y) =>
    if g.board.inbounds x (y + 1) = true ∧ (x, y + 1) ∉ g.board.grid then
      match g.board.move x y x (y + 1) with
      | none => none
      | some b2 => some ({ g with board := b2 }, 0)
    else some (g, -1)

/-- The decoded meaning of an integer action. -/
inductive Decoded where
  | attack (i : ℕ)
  | healTarget (i : ℕ)
  | up
  | down
  | left
  | right
deriving DecidableEq, Repr

/-- src/game.py lines 283-303: the dispatch chain of Game.apply_action.
`none` models the raised ValueError for out-of-range actions. -/
def decodeAction (n : ℕ) (a : ℤ) : Option Decoded :=
  if 0 ≤ a ∧ a < (n : ℤ) then some (.attack a.toNat)
  else if (n : ℤ) ≤ a ∧ a < 2 * (n : ℤ) then some (.healTarget (a - (n : ℤ)).toNat)
  else if a = 2 * (n : ℤ) then some .up
  else if a = 2 * (n : ℤ) + 1 then some .down
  else if a = 2 * (n : ℤ) + 2 then some .left
  else if a = 2 * (n : ℤ) + 3 then some .right
  else none

/-- src/game.py lines 367-368 inside Game.reset: re-add every registered
entity at its recorded initial position (dict iteration order is registration
order). -/
def Game.readdAll : Game → List ℤ → Option Game
  | g, [] => some g
  | g, e :: rest =>
    match g.initialPos e with
    | none => none
    | some p =>
      match g.board.add e p.1 p.2 with
      | none => none
      | some b2 => Game.readdAll { g with board := b2 } rest

/-- src/game.py lines 356-371 (Game.reset): reshuffle the initiative order
(`shuffled` is the explicit outcome of the random shuffle of all registered
agents), rebuild the board from scratch at the initial positions, clear the
dead set, and pop the first agent (front-to-back rotation).  The observation
tensor returned by the source is not modelled. -/
def Game.reset (g : Game) (shuffled : List ℤ) : Option (Game × ℤ) :=
  let g1 : Game := { g with
                     order := shuffled
                     board := Board.empty g.rows g.cols
                     dead := [] }
  match Game.readdAll g1 g.agentsList with
  | none => none
  | some g2 =>
    match g2.order with
    | [] => none
    | a :: rest => some ({ g2 with order := rest ++ [a] }, a)

/-- The entity representation invariant the amended hp claim maintains. -/
def EntInv (e : Entity) : Prop := e.hp ≤ e.max_hp ∧ e.alive = decide (0 < e.hp)

/-- A small board with handle 0 at (0,0) and handle 2 at (0,1); handle 1 is
off the board. -/
def bNear : Board :=
  { rows := 1, cols := 3, grid := {(0, 0), (0, 1)},
    ents := fun p => if p = (0, 0) then some 0 else if p = (0, 1) then some 2 else none,
    loc := fun e => if e = 0 then some (0, 0) else if e = 2 then some (0, 1) else none }

/-- A concrete player-faction entity (driver.py-style stats). -/
def entP : Entity :=
  { kind := 0, amod := 3, dmod := 3, hp := 20, max_hp := 20, ac := 10, potions := 1,
    ranged := false, alive := true }

/-- A concrete enemy-faction entity. -/
def entE : Entity :=
  { kind := 1, amod := 3, dmod := 3, hp := 15, max_hp := 15, ac := 10, potions := 1,
    ranged := false, alive := true }

/-- A concrete two-entity game: player handle 0 at (0,0), enemy handle 1 at
(0,1), on a 2 x 2 board. -/
def gMix : Game :=
  { rows := 2, cols := 2,
    board := { rows := 2, cols := 2, grid := {(0, 0), (0, 1)},
               ents := fun p => if p = (0, 0) then some 0
                                else if p = (0, 1) then some 1 else none,
               loc := fun e => if e = 0 then some (0, 0)
                               else if e = 1 then some (0, 1) else none },
    agents := fun e => if e = 0 then some entP else if e = 1 then some entE else none,
    agentsList := [0, 1],
    order := [0, 1],
    dead := [],
    initialPos := fun e => if e = 0 then some (0, 0)
                           else if e = 1 then some (0, 1) else none,
    labelMap := fun _ => none }

/-- A dead enemy entity (hp driven below zero by damage). -/
def entDead : Entity :=
  { kind := 1, amod := 3, dmod := 3, hp := -2, max_hp := 15, ac := 10, potions := 0,
    ranged := false, alive := false }

/-- A player entity with no potions left. -/
def entP0 : Entity :=
  { entP with potions := 0 }

/-- gMix with the enemy handle 1 dead (in the dead set, alive = false). -/
def gHealCex : Game :=
  { gMix with
    agents := fun e => if e = 0 then some entP else if e = 1 then some entDead else none,
    dead := [1] }

/-- A 3 x 3 game where the two melee entities are far apart (unreachable). -/
def gFar : Game :=
  { rows := 3, cols := 3,
    board := { rows := 3, cols := 3, grid := {(0, 0), (2, 2)},
               ents := fun p => if p = (0, 0) then some 0
                                else if p = (2, 2) then some 1 else none,
               loc := fun e => if e = 0 then some (0, 0)
                               else if e = 1 then some (2, 2) else none },
    agents := fun e => if e = 0 then some entP else if e = 1 then some entE else none,
    agentsList := [0, 1],
    order := [0, 1],
    dead := [],
    initialPos := fun e => if e = 0 then some (0, 0)
                           else if e = 1 then some (2, 2) else none,
    labelMap := fun _ => none }

/-- gMix with the player out of potions. -/
def gNoPot : Game :=
  { gMix with
    agents := fun e => if e = 0 then some entP0 else if e = 1 then some entE else none }

/-- A two-character board label. -/
def lblAA : String := "AA"

/-- gMix after the enemy was killed: handle 1 is dead, off the board, and out
of the initiative order, while still registered. -/
def gDeadGame : Game :=
  { gMix with
    agents := fun e => if e = 0 then some entP else if e = 1 then some entDead else none,
    board := { rows := 2, cols := 2, grid := {(0, 0)},
               ents := fun p => if p = (0, 0) then some 0 else none,
               loc := fun e => if e = 0 then some (0, 0) else none },
    order := [0],
    dead := [1] }

/-- The game produced by resetting gDeadGame with shuffle outcome [1, 0]. -/
def g2C : Game := ((gDeadGame.reset [1, 0]).getD (gDeadGame, 0)).1

/-- The first acting handle produced by that reset. -/
def aC : ℤ := ((gDeadGame.reset [1, 0]).getD (gDeadGame, 0)).2

/-! ### Theorems -/

theorem entInv_step (e : Entity) (op : EOp) (h : EntInv e) (hp : 0 ≤ op.points) :
    EntInv (applyEOp e op) ∧ (applyEOp e op).max_hp = e.max_hp ∧
    ((applyEOp e op).alive = true → e.alive = true) := by
  obtain ⟨h1, h2⟩ := h
  cases op with
  | damage p =>
    simp only [EOp.points] at hp
    refine ⟨⟨?_, ?_⟩, rfl, ?_⟩
    · show e.hp - p ≤ e.max_hp
      omega
    · rfl
    · show decide (0 < e.hp - p) = true → e.alive = true
      intro hal
      rw [h2]
      simp only [decide_eq_true_iff] at hal ⊢
      omega
  | heal p =>
    simp only [EOp.points] at hp
    by_cases hal : e.alive = true
    · have hhp : 0 < e.hp := of_decide_eq_true (h2.symm.trans hal)
      have hheal : applyEOp e (EOp.heal p) = { e with hp := min e.max_hp (e.hp + p) } := by
        simp [applyEOp, Entity.heal, hal]
      rw [hheal]
      refine ⟨⟨?_, ?_⟩, rfl, fun _ => hal⟩
      · exact min_le_left _ _
      · show e.alive = decide (0 < min e.max_hp (e.hp + p))
        rw [hal]
        symm
        simp only [decide_eq_true_iff]
        omega
    · simp only [Bool.not_eq_true] at hal
      have hheal : applyEOp e (EOp.heal p) = e := by
        simp [applyEOp, Entity.heal, hal]
      rw [hheal]
      exact ⟨⟨h1, h2⟩, rfl, fun h => h⟩

theorem entInv_steps (ops : List EOp) (e : Entity) (h : EntInv e)
    (hnn : ∀ op ∈ ops, 0 ≤ op.points) :
    EntInv (applyEOps e ops) ∧ (applyEOps e ops).max_hp = e.max_hp ∧
    ((applyEOps e ops).alive = true → e.alive = true) := by
  induction ops generalizing e with
  | nil => exact ⟨h, rfl, fun h => h⟩
  | cons op ops ih =>
    have hop := entInv_step e op h (hnn op (List.mem_cons_self op ops))
    have hrest := ih (applyEOp e op) hop.1 (fun o ho => hnn o (List.mem_cons_of_mem op ho))
    simp only [applyEOps, List.foldl_cons] at *
    exact ⟨hrest.1, hrest.2.1.trans hop.2.1, fun ha => hop.2.2 (hrest.2.2 ha)⟩

/-- C6 (amended): starting from a freshly created entity with positive hit
points, for every sequence of take_damage and heal operations with
nonnegative point values, hp stays at most max_hp, the alive flag equals
hp > 0, once alive becomes false it never becomes true again, and heal on a
dead entity has no effect.  The lower bound 0 ≤ hp claimed originally does
not hold: take_damage subtracts without clamping. -/
theorem entity_hp_invariant (kind : ℕ) (amod dmod hp0 ac potions : ℤ) (ranged : Bool)
    (ops : List EOp) (h0 : 0 < hp0) (hnn : ∀ op ∈ ops, 0 ≤ op.points) :
    (applyEOps (Entity.create kind amod dmod hp0 ac potions ranged) ops).hp ≤
      (applyEOps (Entity.create kind amod dmod hp0 ac potions ranged) ops).max_hp ∧
    ((applyEOps (Entity.create kind amod dmod hp0 ac potions ranged) ops).alive =
      decide (0 < (applyEOps (Entity.create kind amod dmod hp0 ac potions ranged) ops).hp)) ∧
    (∀ l1 l2, ops = l1 ++ l2 →
      (applyEOps (Entity.create kind amod dmod hp0 ac potions ranged) l1).alive = false →
      (applyEOps (Entity.create kind amod dmod hp0 ac potions ranged) ops).alive = false) ∧
    (∀ e2 : Entity, e2.alive = false → ∀ p : ℤ, e2.heal p = e2) := by
  have hinv : EntInv (Entity.create kind amod dmod hp0 ac potions ranged) := by
    constructor
    · simp [Entity.create]
    · simp only [Entity.create]
      symm
      simp only [decide_eq_true_iff]
      omega
  have hall := entInv_steps ops _ hinv hnn
  refine ⟨hall.1.1, hall.1.2, ?_, ?_⟩
  · intro l1 l2 hsplit hdead
    subst hsplit
    have h1 := entInv_steps l1 _ hinv (fun o ho => hnn o (List.mem_append_left l2 ho))
    have h2 := entInv_steps l2 _ h1.1 (fun o ho => hnn o (List.mem_append_right l1 ho))
    have hfold : applyEOps (Entity.create kind amod dmod hp0 ac potions ranged) (l1 ++ l2) =
        applyEOps (applyEOps (Entity.create kind amod dmod hp0 ac potions ranged) l1) l2 :=
      List.foldl_append applyEOp _ l1 l2
    rw [hfold]
    by_contra hcon
    simp only [Bool.not_eq_false] at hcon
    rw [h2.2.2 hcon] at hdead
    exact absurd hdead (by decide)
  · intro e2 hdead p
    simp [Entity.heal, hdead]

/-- C6 witness: a concrete entity with 10 hp surviving a damage-3 then heal-2
sequence, instantiating the amended invariant theorem. -/
theorem entity_hp_invariant_witness :
    (0 < (10 : ℤ) ∧ ∀ op ∈ [EOp.damage 3, EOp.heal 2], 0 ≤ op.points) ∧
    ((applyEOps (Entity.create 0 0 0 10 10 1 false) [EOp.damage 3, EOp.heal 2]).hp ≤
      (applyEOps (Entity.create 0 0 0 10 10 1 false) [EOp.damage 3, EOp.heal 2]).max_hp ∧
    ((applyEOps (Entity.create 0 0 0 10 10 1 false) [EOp.damage 3, EOp.heal 2]).alive =
      decide (0 < (applyEOps (Entity.create 0 0 0 10 10 1 false) [EOp.damage 3, EOp.heal 2]).hp)) ∧
    (∀ l1 l2, [EOp.damage 3, EOp.heal 2] = l1 ++ l2 →
      (applyEOps (Entity.create 0 0 0 10 10 1 false) l1).alive = false →
      (applyEOps (Entity.create 0 0 0 10 10 1 false) [EOp.damage 3, EOp.heal 2]).alive = false) ∧
    (∀ e2 : Entity, e2.alive = false → ∀ p : ℤ, e2.heal p = e2)) :=
  ⟨⟨by decide, by decide⟩,
    entity_hp_invariant 0 0 0 10 10 1 false [EOp.damage 3, EOp.heal 2] (by decide) (by decide)⟩

/-- C6 counterexample: an entity with 1 hp taking 5 damage ends at hp = -4,
violating the claimed bound 0 ≤ hp. -/
theorem entity_hp_nonneg_cex :
    (applyEOps (Entity.create 0 0 0 1 10 0 false) [EOp.damage 5]).hp = -4 ∧
    ¬ (0 ≤ (applyEOps (Entity.create 0 0 0 1 10 0 false) [EOp.damage 5]).hp) := by
  decide

/-- C4: for any registered count n ≥ 1 the integer interval [0, 2n+4) is
decoded with no gaps or overlaps: [0, n) resolves as attack on the entity at
that index, [n, 2n) as heal on the entity at index a - n, and 2n..2n+3 as
move up, down, left, right; every value outside the interval is a fatal
decoding error (the raised ValueError, modelled as none). -/
theorem action_decoding_partition (n : ℕ) (hn : 1 ≤ n) (a : ℤ) :
    ((decodeAction n a).isSome = true ↔ (0 ≤ a ∧ a < 2 * (n : ℤ) + 4)) ∧
    (∀ i : ℕ, i < n → decodeAction n (i : ℤ) = some (.attack i)) ∧
    (∀ i : ℕ, i < n → decodeAction n ((n : ℤ) + (i : ℤ)) = some (.healTarget i)) ∧
    decodeAction n (2 * (n : ℤ)) = some .up ∧
    decodeAction n (2 * (n : ℤ) + 1) = some .down ∧
    decodeAction n (2 * (n : ℤ) + 2) = some .left ∧
    decodeAction n (2 * (n : ℤ) + 3) = some .right ∧
    (¬ (0 ≤ a ∧ a < 2 * (n : ℤ) + 4) → decodeAction n a = none) := by
  refine ⟨?_, ?_, ?_, ?_, ?_, ?_, ?_, ?_⟩
  · unfold decodeAction
    split_ifs with h1 h2 h3 h4 h5 h6 <;> simp <;> omega
  · intro i hi
    unfold decodeAction
    rw [if_pos (by constructor <;> omega)]
    simp
  · intro i hi
    unfold decodeAction
    rw [if_neg (by omega), if_pos (by constructor <;> omega)]
    simp
  · unfold decodeAction
    rw [if_neg (by omega), if_neg (by omega), if_pos rfl]
  · unfold decodeAction
    rw [if_neg (by omega), if_neg (by omega), if_neg (by omega), if_pos rfl]
  · unfold decodeAction
    rw [if_neg (by omega), if_neg (by omega), if_neg (by omega), if_neg (by omega), if_pos rfl]
  · unfold decodeAction
    rw [if_neg (by omega), if_neg (by omega), if_neg (by omega), if_neg (by omega),
      if_neg (by omega), if_pos rfl]
  · intro hout
    unfold decodeAction
    rw [if_neg (by omega), if_neg (by omega), if_neg (by omega), if_neg (by omega),
      if_neg (by omega), if_neg (by omega)]

/-- C4 witness: the partition theorem instantiated at n = 2, a = 9 (just past
the action space [0, 8), hence a fatal decoding error). -/
theorem action_decoding_partition_witness :
    (1 ≤ 2 ∧ True) ∧
    (((decodeAction 2 9).isSome = true ↔ (0 ≤ (9 : ℤ) ∧ (9 : ℤ) < 2 * (2 : ℤ) + 4)) ∧
    (∀ i : ℕ, i < 2 → decodeAction 2 (i : ℤ) = some (.attack i)) ∧
    (∀ i : ℕ, i < 2 → decodeAction 2 ((2 : ℤ) + (i : ℤ)) = some (.healTarget i)) ∧
    decodeAction 2 (2 * (2 : ℤ)) = some .up ∧
    decodeAction 2 (2 * (2 : ℤ) + 1) = some .down ∧
    decodeAction 2 (2 * (2 : ℤ) + 2) = some .left ∧
    decodeAction 2 (2 * (2 : ℤ) + 3) = some .right ∧
    (¬ (0 ≤ (9 : ℤ) ∧ (9 : ℤ) < 2 * (2 : ℤ) + 4) → decodeAction 2 9 = none)) :=
  ⟨⟨by decide, trivial⟩, action_decoding_partition 2 (by decide) 9⟩

/-- C3: the done flag computed by Game.step is true if and only if every
entity remaining in the initiative order belongs to the same faction (same
concrete kind); in particular an empty order and a lone survivor both
terminate. -/
theorem done_iff_single_faction (g : Game) :
    (g.doneFlag = true ↔ ∀ x ∈ g.order, ∀ y ∈ g.order, g.kindOf x = g.kindOf y) ∧
    (g.order = [] → g.doneFlag = true) ∧
    (∀ e : ℤ, g.order = [e] → g.doneFlag = true) := by
  refine ⟨?_, ?_, ?_⟩
  · simp [Game.doneFlag, List.all_eq_true, Game.allyIds]
  · intro h
    simp [Game.doneFlag, h]
  · intro e h
    simp [Game.doneFlag, h, Game.allyIds]

/-- C8 (amended): adjacent(h, h) returns true whenever h is on the board; a
call whose first handle is off the board raises (the assert), for any second
handle; with the first handle on the board and the second off, it returns
false; and for distinct handles both on the board the query is symmetric. -/
theorem near_adjacency (b : Board) (h1 h2 : ℤ) :
    (∀ p, b.loc h1 = some p → b.near h1 h1 = some true) ∧
    (b.loc h1 = none → ∀ k, b.near h1 k = none) ∧
    ((b.loc h1).isSome = true → b.loc h2 = none → b.near h1 h2 = some false) ∧
    (h1 ≠ h2 → (b.loc h1).isSome = true → (b.loc h2).isSome = true →
      b.near h1 h2 = b.near h2 h1) := by
  refine ⟨?_, ?_, ?_, ?_⟩
  · intro p hp
    simp [Board.near, hp]
  · intro hnone k
    simp [Board.near, hnone]
  · intro hsome hnone
    obtain ⟨p, hp⟩ := Option.isSome_iff_exists.mp hsome
    simp [Board.near, hp, hnone]
  · intro hne hs1 hs2
    obtain ⟨p1, hp1⟩ := Option.isSome_iff_exists.mp hs1
    obtain ⟨p2, hp2⟩ := Option.isSome_iff_exists.mp hs2
    obtain ⟨x1, y1⟩ := p1
    obtain ⟨x2, y2⟩ := p2
    simp only [Board.near, hp1, hp2, if_neg hne, if_neg (Ne.symm hne)]
    rw [Option.some_inj, decide_eq_decide]
    omega

/-- C8 witness: on the concrete board bNear, the on-board self query returns
true and the query between the two distinct on-board handles is symmetric. -/
theorem near_adjacency_witness :
    bNear.near 0 0 = some true ∧ bNear.near 0 2 = bNear.near 2 0 :=
  ⟨(near_adjacency bNear 0 2).1 (0, 0) (by decide),
   (near_adjacency bNear 0 2).2.2.2 (by decide) (by decide) (by decide)⟩

/-- C8 counterexample: handle 1 is off the board bNear while handle 0 is on
it, and near(1, 0) raises (none) instead of returning false as the claim
requires when either handle is off the board. -/
theorem near_offboard_raises_cex :
    bNear.loc 1 = none ∧ bNear.loc 0 = some (0, 0) ∧ bNear.near 1 0 = none ∧
    ¬ bNear.near 1 0 = some false := by
  decide

theorem bInv_empty (rows cols : ℤ) : BInv (Board.empty rows cols) := by
  refine ⟨?_, ?_, ?_⟩
  · intro e p
    simp [Board.empty]
  · intro p
    simp [Board.empty]
  · intro e p h
    simp [Board.empty] at h

theorem bInv_add (b : Board) (eid x y : ℤ) (hb : BInv b)
    (hpre : BOp.pre b (.add eid x y) = true) :
    BInv (BOp.apply b (.add eid x y)) ∧
    (BOp.apply b (.add eid x y)).grid.card = b.grid.card + 1 ∧
    (BOp.apply b (.add eid x y)).rows = b.rows ∧
    (BOp.apply b (.add eid x y)).cols = b.cols := by
  obtain ⟨inv1, inv2, inv3⟩ := hb
  simp only [BOp.pre, BOp.preCode, Bool.and_eq_true, decide_eq_true_eq,
    Option.isNone_iff_eq_none] at hpre
  obtain ⟨⟨hib, hfree⟩, hfresh⟩ := hpre
  have happ : BOp.apply b (.add eid x y) =
      { rows := b.rows, cols := b.cols, grid := insert (x, y) b.grid,
        ents := fun p => if p = (x, y) then some eid else b.ents p,
        loc := fun e => if e = eid then some (x, y) else b.loc e } := by
    simp [BOp.apply, Board.add, hib, hfree]
  rw [happ]
  refine ⟨⟨?_, ?_, ?_⟩, ?_, rfl, rfl⟩
  · intro e p
    show (if e = eid then some (x, y) else b.loc e) = some p ↔
      (if p = (x, y) then some eid else b.ents p) = some e
    by_cases he : e = eid
    · subst he
      rw [if_pos rfl]
      by_cases hpq : p = (x, y)
      · subst hpq
        rw [if_pos rfl]
        simp
      · rw [if_neg hpq]
        constructor
        · intro h
          exact absurd (Option.some_inj.mp h) (fun hh => hpq hh.symm)
        · intro h
          have h2 := (inv1 e p).mpr h
          rw [hfresh] at h2
          exact Option.noConfusion h2
    · rw [if_neg he]
      by_cases hpq : p = (x, y)
      · subst hpq
        rw [if_pos rfl]
        constructor
        · intro h
          have h2 := (inv1 e (x, y)).mp h
          have hm : ((x, y) : ℤ × ℤ) ∈ b.grid := (inv2 (x, y)).mpr (by rw [h2]; rfl)
          exact absurd hm hfree
        · intro h
          exact absurd (Option.some_inj.mp h) (fun hh => he hh.symm)
      · rw [if_neg hpq]
        exact inv1 e p
  · intro p
    show p ∈ insert (x, y) b.grid ↔
      (if p = (x, y) then some eid else b.ents p).isSome = true
    by_cases hpq : p = (x, y)
    · subst hpq
      rw [if_pos rfl]
      simp
    · rw [if_neg hpq, Finset.mem_insert]
      simp only [hpq, false_or]
      exact inv2 p
  · intro e p
    show (if e = eid then some (x, y) else b.loc e) = some p →
      b.inbounds p.1 p.2 = true
    by_cases he : e = eid
    · rw [if_pos he]
      intro h
      have hpe := Option.some_inj.mp h
      subst hpe
      exact hib
    · rw [if_neg he]
      exact inv3 e p
  · exact Finset.card_insert_of_not_mem hfree

theorem bInv_remove (b : Board) (eid : ℤ) (hb : BInv b)
    (hpre : BOp.pre b (.remove eid) = true) :
    BInv (BOp.apply b (.remove eid)) ∧
    (BOp.apply b (.remove eid)).grid.card + 1 = b.grid.card ∧
    (BOp.apply b (.remove eid)).rows = b.rows ∧
    (BOp.apply b (.remove eid)).cols = b.cols := by
  obtain ⟨inv1, inv2, inv3⟩ := hb
  simp only [BOp.pre, BOp.preCode] at hpre
  obtain ⟨q, hq⟩ := Option.isSome_iff_exists.mp hpre
  have hent : b.ents q = some eid := (inv1 eid q).mp hq
  have hmem : q ∈ b.grid := (inv2 q).mpr (by rw [hent]; rfl)
  have happ : BOp.apply b (.remove eid) =
      { rows := b.rows, cols := b.cols, grid := b.grid.erase q,
        ents := fun p => if p = q then none else b.ents p,
        loc := fun e => if e = eid then none else b.loc e } := by
    simp [BOp.apply, Board.remove, hq]
  rw [happ]
  refine ⟨⟨?_, ?_, ?_⟩, ?_, rfl, rfl⟩
  · intro e p
    show (if e = eid then none else b.loc e) = some p ↔
      (if p = q then none else b.ents p) = some e
    by_cases he : e = eid
    · subst he
      rw [if_pos rfl]
      constructor
      · intro h
        exact Option.noConfusion h
      · intro h
        by_cases hpq : p = q
        · rw [if_pos hpq] at h
          exact Option.noConfusion h
        · rw [if_neg hpq] at h
          have h2 := (inv1 e p).mpr h
          rw [hq] at h2
          exact absurd (Option.some_inj.mp h2) (fun hh => hpq hh.symm)
    · rw [if_neg he]
      by_cases hpq : p = q
      · subst hpq
        rw [if_pos rfl]
        constructor
        · intro h
          have h2 := (inv1 e p).mp h
          rw [hent] at h2
          exact absurd (Option.some_inj.mp h2) (fun hh => he hh.symm)
        · intro h
          exact Option.noConfusion h
      · rw [if_neg hpq]
        exact inv1 e p
  · intro p
    show p ∈ b.grid.erase q ↔ (if p = q then none else b.ents p).isSome = true
    by_cases hpq : p = q
    · subst hpq
      rw [if_pos rfl]
      simp
    · rw [if_neg hpq, Finset.mem_erase]
      constructor
      · intro h
        exact (inv2 p).mp h.2
      · intro h
        exact ⟨hpq, (inv2 p).mpr h⟩
  · intro e p
    show (if e = eid then none else b.loc e) = some p →
      b.inbounds p.1 p.2 = true
    by_cases he : e = eid
    · rw [if_pos he]
      intro h
      exact Option.noConfusion h
    · rw [if_neg he]
      exact inv3 e p
  · exact Finset.card_erase_add_one hmem

theorem bInv_move (b : Board) (x y xf yf : ℤ) (hb : BInv b)
    (hpre : BOp.pre b (.move x y xf yf) = true) :
    BInv (BOp.apply b (.move x y xf yf)) ∧
    (BOp.apply b (.move x y xf yf)).grid.card = b.grid.card ∧
    (BOp.apply b (.move x y xf yf)).rows = b.rows ∧
    (BOp.apply b (.move x y xf yf)).cols = b.cols := by
  obtain ⟨inv1, inv2, inv3⟩ := hb
  simp only [BOp.pre, BOp.preCode, Bool.and_eq_true, decide_eq_true_eq] at hpre
  obtain ⟨⟨⟨⟨hib1, hib2⟩, hsome⟩, hused⟩, hfree⟩ := hpre
  obtain ⟨eid, hent⟩ := Option.isSome_iff_exists.mp hsome
  have hloc : b.loc eid = some (x, y) := (inv1 eid (x, y)).mpr hent
  have hne : ((x, y) : ℤ × ℤ) ≠ (xf, yf) := by
    intro h
    rw [h] at hused
    exact hfree hused
  have happ : BOp.apply b (.move x y xf yf) =
      { rows := b.rows, cols := b.cols,
        grid := insert (xf, yf) (b.grid.erase (x, y)),
        ents := fun p => if p = (xf, yf) then some eid
                         else if p = (x, y) then none else b.ents p,
        loc := fun e => if e = eid then some (xf, yf) else b.loc e } := by
    simp [BOp.apply, Board.move, hib1, hib2, hent, hused, hfree]
  rw [happ]
  refine ⟨⟨?_, ?_, ?_⟩, ?_, rfl, rfl⟩
  · intro e p
    show (if e = eid then some (xf, yf) else b.loc e) = some p ↔
      (if p = (xf, yf) then some eid else if p = (x, y) then none else b.ents p) = some e
    by_cases he : e = eid
    · subst he
      rw [if_pos rfl]
      by_cases hpf : p = (xf, yf)
      · subst hpf
        rw [if_pos rfl]
        simp
      · rw [if_neg hpf]
        constructor
        · intro h
          exact absurd (Option.some_inj.mp h) (fun hh => hpf hh.symm)
        · intro h
          by_cases hpxy : p = (x, y)
          · rw [if_pos hpxy] at h
            exact Option.noConfusion h
          · rw [if_neg hpxy] at h
            have h2 := (inv1 e p).mpr h
            rw [hloc] at h2
            exact absurd (Option.some_inj.mp h2) (fun hh => hpxy hh.symm)
    · rw [if_neg he]
      by_cases hpf : p = (xf, yf)
      · subst hpf
        rw [if_pos rfl]
        constructor
        · intro h
          have h2 := (inv1 e (xf, yf)).mp h
          have hm : ((xf, yf) : ℤ × ℤ) ∈ b.grid := (inv2 (xf, yf)).mpr (by rw [h2]; rfl)
          exact absurd hm hfree
        · intro h
          exact absurd (Option.some_inj.mp h) (fun hh => he hh.symm)
      · rw [if_neg hpf]
        by_cases hpxy : p = (x, y)
        · subst hpxy
          rw [if_pos rfl]
          constructor
          · intro h
            have h2 := (inv1 e (x, y)).mp h
            rw [hent] at h2
            exact absurd (Option.some_inj.mp h2) (fun hh => he hh.symm)
          · intro h
            exact Option.noConfusion h
        · rw [if_neg hpxy]
          exact inv1 e p
  · intro p
    show p ∈ insert (xf, yf) (b.grid.erase (x, y)) ↔
      (if p = (xf, yf) then some eid else if p = (x, y) then none else b.ents p).isSome = true
    by_cases hpf : p = (xf, yf)
    · subst hpf
      rw [if_pos rfl]
      simp
    · rw [if_neg hpf, Finset.mem_insert]
      simp only [hpf, false_or]
      by_cases hpxy : p = (x, y)
      · subst hpxy
        rw [if_pos rfl]
        simp
      · rw [if_neg hpxy, Finset.mem_erase]
        constructor
        · intro h
          exact (inv2 p).mp h.2
        · intro h
          exact ⟨hpxy, (inv2 p).mpr h⟩
  · intro e p
    show (if e = eid then some (xf, yf) else b.loc e) = some p →
      b.inbounds p.1 p.2 = true
    by_cases he : e = eid
    · rw [if_pos he]
      intro h
      have hpe := Option.some_inj.mp h
      subst hpe
      exact hib2
    · rw [if_neg he]
      exact inv3 e p
  · rw [Finset.card_insert_of_not_mem (fun hm => hfree (Finset.mem_of_mem_erase hm)),
      Finset.card_erase_add_one hused]

/-- C7 (amended): for every sequence of add, remove, and move operations
whose preconditions hold — the asserted ones plus, for add, that the handle
is not already on the board (Board.add itself does not check this; Game.add's
registry check supplies it) — the location and occupant maps remain exact
inverses, every occupied cell holds exactly one entity, stored coordinates
stay in bounds, and occupied-cell count plus removals equals the initial
count plus additions (so, from an empty board, adds minus removes). -/
theorem board_ops_invariant (ops : List BOp) (b : Board) (hb : BInv b)
    (hpre : presHold b ops = true) :
    BInv (applyBOps b ops) ∧
    (applyBOps b ops).grid.card + removeCount ops = b.grid.card + addCount ops ∧
    (applyBOps b ops).rows = b.rows ∧ (applyBOps b ops).cols = b.cols := by
  induction ops generalizing b with
  | nil => exact ⟨hb, rfl, rfl, rfl⟩
  | cons op ops ih =>
    simp only [presHold, Bool.and_eq_true] at hpre
    obtain ⟨hop, hrest⟩ := hpre
    cases op with
    | add eid x y =>
      have h1 := bInv_add b eid x y hb hop
      have h2 := ih (BOp.apply b (.add eid x y)) h1.1 hrest
      refine ⟨h2.1, ?_, h2.2.2.1.trans h1.2.2.1, h2.2.2.2.trans h1.2.2.2⟩
      have hc1 := h1.2.1
      have hc2 := h2.2.1
      show (applyBOps (BOp.apply b (.add eid x y)) ops).grid.card + removeCount ops =
        b.grid.card + (addCount ops + 1)
      omega
    | remove eid =>
      have h1 := bInv_remove b eid hb hop
      have h2 := ih (BOp.apply b (.remove eid)) h1.1 hrest
      refine ⟨h2.1, ?_, h2.2.2.1.trans h1.2.2.1, h2.2.2.2.trans h1.2.2.2⟩
      have hc1 := h1.2.1
      have hc2 := h2.2.1
      show (applyBOps (BOp.apply b (.remove eid)) ops).grid.card + (removeCount ops + 1) =
        b.grid.card + addCount ops
      omega
    | move x y xf yf =>
      have h1 := bInv_move b x y xf yf hb hop
      have h2 := ih (BOp.apply b (.move x y xf yf)) h1.1 hrest
      refine ⟨h2.1, ?_, h2.2.2.1.trans h1.2.2.1, h2.2.2.2.trans h1.2.2.2⟩
      have hc1 := h1.2.1
      have hc2 := h2.2.1
      show (applyBOps (BOp.apply b (.move x y xf yf)) ops).grid.card + removeCount ops =
        b.grid.card + addCount ops
      omega

/-- C7 witness: the invariant theorem instantiated on an empty 2 x 2 board
with a concrete add / add / move / remove sequence. -/
theorem board_ops_invariant_witness :
    (BInv (Board.empty 2 2) ∧
      presHold (Board.empty 2 2)
        [BOp.add 5 0 0, BOp.add 6 0 1, BOp.move 0 0 1 0, BOp.remove 5] = true) ∧
    (BInv (applyBOps (Board.empty 2 2)
        [BOp.add 5 0 0, BOp.add 6 0 1, BOp.move 0 0 1 0, BOp.remove 5]) ∧
    (applyBOps (Board.empty 2 2)
        [BOp.add 5 0 0, BOp.add 6 0 1, BOp.move 0 0 1 0, BOp.remove 5]).grid.card +
      removeCount [BOp.add 5 0 0, BOp.add 6 0 1, BOp.move 0 0 1 0, BOp.remove 5] =
      (Board.empty 2 2).grid.card +
      addCount [BOp.add 5 0 0, BOp.add 6 0 1, BOp.move 0 0 1 0, BOp.remove 5] ∧
    (applyBOps (Board.empty 2 2)
        [BOp.add 5 0 0, BOp.add 6 0 1, BOp.move 0 0 1 0, BOp.remove 5]).rows =
      (Board.empty 2 2).rows ∧
    (applyBOps (Board.empty 2 2)
        [BOp.add 5 0 0, BOp.add 6 0 1, BOp.move 0 0 1 0, BOp.remove 5]).cols =
      (Board.empty 2 2).cols) :=
  ⟨⟨bInv_empty 2 2, by decide⟩,
    board_ops_invariant [BOp.add 5 0 0, BOp.add 6 0 1, BOp.move 0 0 1 0, BOp.remove 5]
      (Board.empty 2 2) (bInv_empty 2 2) (by decide)⟩

/-- C7 counterexample: adding the same handle twice at two free cells passes
every precondition the source asserts, yet afterwards the occupant map still
sends (0,0) to the handle while the location map sends the handle to (0,1),
so the two maps are not exact inverses. -/
theorem board_double_add_cex :
    presHoldCode (Board.empty 1 2) [BOp.add 0 0 0, BOp.add 0 0 1] = true ∧
    (applyBOps (Board.empty 1 2) [BOp.add 0 0 0, BOp.add 0 0 1]).ents (0, 0) = some 0 ∧
    (applyBOps (Board.empty 1 2) [BOp.add 0 0 0, BOp.add 0 0 1]).loc 0 = some (0, 1) ∧
    ¬ (∀ e p, (applyBOps (Board.empty 1 2) [BOp.add 0 0 0, BOp.add 0 0 1]).loc e = some p ↔
        (applyBOps (Board.empty 1 2) [BOp.add 0 0 0, BOp.add 0 0 1]).ents p = some e) := by
  refine ⟨by decide, by decide, by decide, fun hinv => ?_⟩
  have h1 := (hinv 0 (0, 0)).mpr (by decide)
  have h2 : (applyBOps (Board.empty 1 2) [BOp.add 0 0 0, BOp.add 0 0 1]).loc 0 =
      some (0, 1) := by decide
  rw [h1] at h2
  exact absurd (Option.some_inj.mp h2) (by decide)

/-- C3 witness: the done predicate on a lone survivor and on an empty
rotation, via the iff theorem. -/
theorem done_iff_single_faction_witness :
    Game.doneFlag { gMix with order := [0] } = true ∧
    Game.doneFlag { gMix with order := [] } = true :=
  ⟨(done_iff_single_faction { gMix with order := [0] }).1.mpr (by decide),
   (done_iff_single_faction { gMix with order := [] }).2.1 rfl⟩

/-- C1: attacking a living (not in the dead set), reachable target hits iff
d20 + attack modifier is at least the target's armor class; a miss gives
reward -1 and no state change; a hit subtracts 2d6 + damage modifier from
the target's hit points, with reward sign factor -2 for a self-hit, -1 for a
distinct same-faction target, +1 for an opposing-faction target; and if the
hit leaves the target non-alive the signed reward is doubled and the target
is removed from the board and the initiative order and added to the dead
set. -/
theorem attack_resolution (g : Game) (aEid tEid : ℤ) (action : ℕ)
    (agent target : Entity) (d20 twoD6 : ℤ)
    (hidx : g.index_to_agent action = some tEid)
    (hag : g.agents aEid = some agent)
    (htg : g.agents tEid = some target)
    (hdead : tEid ∉ g.dead)
    (hreach : agent.ranged = true ∨ g.board.near aEid tEid = some true)
    (horder : tEid ∈ g.order)
    (hnodup : g.order.Nodup)
    (hboard : (g.board.loc tEid).isSome = true) :
    (agent.roll_attack d20 < target.ac →
      g.handle_attack aEid action d20 twoD6 = some (g, -1)) ∧
    (target.ac ≤ agent.roll_attack d20 →
      ((target.take_damage (agent.roll_damage twoD6)).hp =
        target.hp - (twoD6 + agent.dmod)) ∧
      (0 < target.hp - agent.roll_damage twoD6 →
        g.handle_attack aEid action d20 twoD6 =
          some (g.setAgent tEid (target.take_damage (agent.roll_damage twoD6)),
            if tEid = aEid then -2 * agent.roll_damage twoD6
            else if ally agent target then -(agent.roll_damage twoD6)
            else agent.roll_damage twoD6) ∧
        (g.setAgent tEid (target.take_damage (agent.roll_damage twoD6))).agents tEid =
          some (target.take_damage (agent.roll_damage twoD6)) ∧
        (∀ e, e ≠ tEid →
          (g.setAgent tEid (target.take_damage (agent.roll_damage twoD6))).agents e =
            g.agents e)) ∧
      (target.hp - agent.roll_damage twoD6 ≤ 0 →
        ∃ b2, g.board.remove tEid = some b2 ∧ b2.loc tEid = none ∧
          g.handle_attack aEid action d20 twoD6 =
            some ({ g.setAgent tEid (target.take_damage (agent.roll_damage twoD6)) with
                    dead := tEid :: g.dead
                    order := g.order.erase tEid
                    board := b2 },
              (if tEid = aEid then -2 * agent.roll_damage twoD6
               else if ally agent target then -(agent.roll_damage twoD6)
               else agent.roll_damage twoD6) * 2) ∧
          tEid ∉ g.order.erase tEid)) := by
  have hne : (if agent.ranged = true then some true else g.board.near aEid tEid) =
      some true := by
    rcases hreach with h | h
    · rw [if_pos h]
    · by_cases hr : agent.ranged = true
      · rw [if_pos hr]
      · rw [if_neg hr]
        exact h
  refine ⟨?_, ?_⟩
  · intro hmiss
    have hhit : decide (target.ac ≤ agent.roll_attack d20) = false := by
      simp only [decide_eq_false_iff_not, not_le]
      exact hmiss
    simp only [Game.handle_attack, hidx, hag, htg, hne, hhit]
    rw [if_neg hdead]
    simp
  · intro hhit0
    have hhit : decide (target.ac ≤ agent.roll_attack d20) = true := by
      simp only [decide_eq_true_eq]
      exact hhit0
    refine ⟨rfl, ?_, ?_⟩
    · intro halive0
      have halive : (target.take_damage (agent.roll_damage twoD6)).is_alive = true := by
        simp only [Entity.is_alive, Entity.take_damage, decide_eq_true_eq]
        exact halive0
      refine ⟨?_, ?_, ?_⟩
      · simp only [Game.handle_attack, hidx, hag, htg, hne, hhit]
        rw [if_neg hdead]
        simp only [halive]
        simp
      · simp [Game.setAgent]
      · intro e hene
        simp [Game.setAgent, hene]
    · intro hkill0
      have hkill : (target.take_damage (agent.roll_damage twoD6)).is_alive = false := by
        simp only [Entity.is_alive, Entity.take_damage, decide_eq_false_iff_not, not_lt]
        exact hkill0
      obtain ⟨q, hq⟩ := Option.isSome_iff_exists.mp hboard
      refine ⟨{ rows := g.board.rows, cols := g.board.cols, grid := g.board.grid.erase q,
                ents := fun r => if r = q then none else g.board.ents r,
                loc := fun e => if e = tEid then none else g.board.loc e }, ?_, ?_, ?_, ?_⟩
      · simp [Board.remove, hq]
      · simp
      · simp only [Game.handle_attack, hidx, hag, htg, hne, hhit]
        rw [if_neg hdead]
        simp only [hkill]
        have horder2 : tEid ∈ (g.setAgent tEid (target.take_damage (agent.roll_damage twoD6))).order :=
          horder
        rw [if_pos horder2]
        have hrem : (g.setAgent tEid (target.take_damage (agent.roll_damage twoD6))).board.remove tEid =
            some { rows := g.board.rows, cols := g.board.cols, grid := g.board.grid.erase q,
                   ents := fun r => if r = q then none else g.board.ents r,
                   loc := fun e => if e = tEid then none else g.board.loc e } := by
          simp [Game.setAgent, Board.remove, hq]
        simp only [hrem]
        simp
        exact ⟨rfl, rfl⟩
      · intro hmem
        exact (hnodup.mem_erase_iff.mp hmem).1 rfl

/-- C1 witness: in the concrete game gMix, the player (handle 0) attacks the
adjacent enemy (index 1) with an 15 attack die and 7 damage dice: a hit for
10 damage and reward +10, leaving the enemy alive. -/
theorem attack_resolution_witness :
    gMix.handle_attack 0 1 15 7 =
      some (gMix.setAgent 1 (entE.take_damage (entP.roll_damage 7)),
        if (1 : ℤ) = 0 then -2 * entP.roll_damage 7
        else if ally entP entE then -(entP.roll_damage 7) else entP.roll_damage 7) :=
  ((attack_resolution gMix 0 1 1 entP entE 15 7 (by decide) (by decide) (by decide)
    (by decide) (Or.inr (by decide)) (by decide) (by decide) (by decide)).2
    (by decide)).2.1 (by decide) |>.1

/-- C2: healing first checks the potion supply — with none, reward -1 and no
potion consumed, regardless of the target's state; otherwise one potion is
consumed and 2d4 + 2 points are rolled; if the target is then dead or not
adjacent (ranged status does not extend heal reach) the reward is -1 and the
points are not applied, though the potion stays spent; otherwise the target
heals by the rolled amount capped at max hp and the reward is the rolled
amount for self or a same-faction target and its negation for an
opposing-faction target (the heal still applies). -/
theorem heal_resolution (g : Game) (aEid tEid : ℤ) (action : ℕ)
    (agent target : Entity) (roll2d4 : ℤ) (reachval : Bool)
    (hidx : g.index_to_agent action = some tEid)
    (hag : g.agents aEid = some agent)
    (htg : g.agents tEid = some target)
    (hnear : g.board.near aEid tEid = some reachval)
    (hroll : 2 ≤ roll2d4) :
    (agent.potions ≤ 0 →
      g.handle_heal aEid action roll2d4 = some (g.setAgent aEid agent, -1) ∧
      (∀ e, (g.setAgent aEid agent).agents e = g.agents e) ∧
      (g.setAgent aEid agent).board = g.board ∧
      (g.setAgent aEid agent).order = g.order ∧
      (g.setAgent aEid agent).dead = g.dead) ∧
    (0 < agent.potions →
      ∀ target2,
        (g.setAgent aEid { agent with potions := agent.potions - 1 }).agents tEid =
          some target2 →
      ((target2.alive = false ∨ reachval = false) →
        g.handle_heal aEid action roll2d4 =
          some (g.setAgent aEid { agent with potions := agent.potions - 1 }, -1)) ∧
      (target2.alive = true → reachval = true →
        g.handle_heal aEid action roll2d4 =
          some ((g.setAgent aEid { agent with potions := agent.potions - 1 }).setAgent tEid
              (target2.heal (roll2d4 + 2)),
            if tEid = aEid then roll2d4 + 2
            else if ally agent target then roll2d4 + 2 else -(roll2d4 + 2)) ∧
        (target2.heal (roll2d4 + 2)).hp = min target2.max_hp (target2.hp + (roll2d4 + 2)))) := by
  refine ⟨?_, ?_⟩
  · intro hpot
    have hup : agent.use_potion roll2d4 = (agent, 0) := by
      simp only [Entity.use_potion]
      rw [if_neg (by omega)]
    refine ⟨?_, ?_, rfl, rfl, rfl⟩
    · simp only [Game.handle_heal, hidx, hag, htg, hnear, hup]
      have hagent2 : (g.setAgent aEid agent).agents tEid =
          some (if tEid = aEid then agent else target) := by
        by_cases he : tEid = aEid
        · simp [Game.setAgent, he]
        · simp [Game.setAgent, he, htg]
      simp only [hagent2]
      simp
    · intro e
      by_cases he : e = aEid
      · simp [Game.setAgent, he, hag]
      · simp [Game.setAgent, he]
  · intro hpot target2 htg2
    have hup : agent.use_potion roll2d4 = ({ agent with potions := agent.potions - 1 },
        roll2d4 + 2) := by
      simp only [Entity.use_potion]
      rw [if_pos hpot]
    have hpts : roll2d4 + 2 ≠ 0 := by omega
    refine ⟨?_, ?_⟩
    · intro hfail
      simp only [Game.handle_heal, hidx, hag, htg, hnear, hup, htg2]
      rw [if_neg hpts]
      rcases hfail with hdead | hunreach
      · rw [if_pos (by simp [Entity.is_alive, hdead])]
      · have halive2 : (target2.is_alive = false) ∨ target2.is_alive = true := by
          cases h : target2.is_alive
          · exact Or.inl rfl
          · exact Or.inr rfl
        rcases halive2 with hd | ha
        · rw [if_pos hd]
        · rw [if_neg (by simp [ha]), if_pos hunreach]
    · intro halive hreachT
      have halive2 : target2.is_alive = true := halive
      constructor
      · simp only [Game.handle_heal, hidx, hag, htg, hnear, hup, htg2]
        rw [if_neg hpts, if_neg (by simp [halive2]), if_neg (by simp [hreachT])]
      · simp [Entity.heal, halive]

/-- C2 witness: in gMix the player (1 potion) heals itself with dice outcome
4: the potion is consumed and 6 points are applied, reward +6. -/
theorem heal_resolution_witness :
    gMix.handle_heal 0 0 4 =
      some ((gMix.setAgent 0 { entP with potions := entP.potions - 1 }).setAgent 0
          (Entity.heal { entP with potions := entP.potions - 1 } (4 + 2)),
        if (0 : ℤ) = 0 then 4 + 2
        else if ally entP entP then 4 + 2 else -(4 + 2)) :=
  (((heal_resolution gMix 0 0 0 entP entP 4 true (by decide) (by decide) (by decide)
    (by decide) (by decide)).2 (by decide) { entP with potions := entP.potions - 1 }
    (by decide)).2 (by decide) (by decide)).1

/-- C5 (amended): attacking an already-dead target, attacking an unreachable
target, healing with no potions, and moving into a wall or occupied cell all
yield reward -1 with no state change and no exception; healing a dead or
unreachable target also yields reward -1 and does not throw, but it is not
state-neutral: one potion is consumed (the board, hit points, order, and
dead set stay unchanged). -/
theorem penalty_outcomes :
    (∀ (g : Game) (aEid tEid : ℤ) (action : ℕ) (agent target : Entity) (d20 twoD6 : ℤ),
      g.index_to_agent action = some tEid → g.agents aEid = some agent →
      g.agents tEid = some target →
      (agent.ranged = true ∨ (g.board.near aEid tEid).isSome = true) →
      tEid ∈ g.dead →
      g.handle_attack aEid action d20 twoD6 = some (g, -1)) ∧
    (∀ (g : Game) (aEid tEid : ℤ) (action : ℕ) (agent target : Entity) (d20 twoD6 : ℤ),
      g.index_to_agent action = some tEid → g.agents aEid = some agent →
      g.agents tEid = some target →
      agent.ranged = false → g.board.near aEid tEid = some false →
      g.handle_attack aEid action d20 twoD6 = some (g, -1)) ∧
    (∀ (g : Game) (aEid tEid : ℤ) (action : ℕ) (agent target : Entity) (roll2d4 : ℤ)
      (reachval : Bool),
      g.index_to_agent action = some tEid → g.agents aEid = some agent →
      g.agents tEid = some target → g.board.near aEid tEid = some reachval →
      agent.potions ≤ 0 →
      g.handle_heal aEid action roll2d4 = some (g.setAgent aEid agent, -1) ∧
      (∀ e, (g.setAgent aEid agent).agents e = g.agents e) ∧
      (g.setAgent aEid agent).board = g.board ∧
      (g.setAgent aEid agent).order = g.order ∧
      (g.setAgent aEid agent).dead = g.dead) ∧
    (∀ (g : Game) (aEid tEid : ℤ) (action : ℕ) (agent target : Entity) (roll2d4 : ℤ)
      (reachval : Bool) (target2 : Entity),
      g.index_to_agent action = some tEid → g.agents aEid = some agent →
      g.agents tEid = some target → g.board.near aEid tEid = some reachval →
      0 < agent.potions → 2 ≤ roll2d4 →
      (g.setAgent aEid { agent with potions := agent.potions - 1 }).agents tEid =
        some target2 →
      (target2.alive = false ∨ reachval = false) →
      g.handle_heal aEid action roll2d4 =
        some (g.setAgent aEid { agent with potions := agent.potions - 1 }, -1) ∧
      (g.setAgent aEid { agent with potions := agent.potions - 1 }).agents aEid =
        some { agent with potions := agent.potions - 1 } ∧
      (∀ e, e ≠ aEid →
        (g.setAgent aEid { agent with potions := agent.potions - 1 }).agents e =
          g.agents e) ∧
      (g.setAgent aEid { agent with potions := agent.potions - 1 }).board = g.board ∧
      (g.setAgent aEid { agent with potions := agent.potions - 1 }).order = g.order ∧
      (g.setAgent aEid { agent with potions := agent.potions - 1 }).dead = g.dead) ∧
    (∀ (g : Game) (aEid x y : ℤ),
      g.board.loc aEid = some (x, y) →
      ((g.board.inbounds (x - 1) y = false ∨ (x - 1, y) ∈ g.board.grid) →
        g.handle_up aEid = some (g, -1)) ∧
      ((g.board.inbounds (x + 1) y = false ∨ (x + 1, y) ∈ g.board.grid) →
        g.handle_down aEid = some (g, -1)) ∧
      ((g.board.inbounds x (y - 1) = false ∨ (x, y - 1) ∈ g.board.grid) →
        g.handle_left aEid = some (g, -1)) ∧
      ((g.board.inbounds x (y + 1) = false ∨ (x, y + 1) ∈ g.board.grid) →
        g.handle_right aEid = some (g, -1))) := by
  refine ⟨?_, ?_, ?_, ?_, ?_⟩
  · intro g aEid tEid action agent target d20 twoD6 hidx hag htg hreach hdead
    obtain ⟨rv, hrv⟩ : ∃ rv, (if agent.ranged = true then some true
        else g.board.near aEid tEid) = some rv := by
      rcases hreach with h | h
      · exact ⟨true, by rw [if_pos h]⟩
      · by_cases hr : agent.ranged = true
        · exact ⟨true, by rw [if_pos hr]⟩
        · obtain ⟨rv, hrv⟩ := Option.isSome_iff_exists.mp h
          exact ⟨rv, by rw [if_neg hr]; exact hrv⟩
    simp only [Game.handle_attack, hidx, hag, htg, hrv]
    rw [if_pos hdead]
  · intro g aEid tEid action agent target d20 twoD6 hidx hag htg hranged hnear
    have hrv : (if agent.ranged = true then some true else g.board.near aEid tEid) =
        some false := by
      rw [if_neg (by rw [hranged]; exact Bool.false_ne_true)]
      exact hnear
    simp only [Game.handle_attack, hidx, hag, htg, hrv]
    by_cases hdead : tEid ∈ g.dead
    · rw [if_pos hdead]
    · rw [if_neg hdead]
      simp
  · intro g aEid tEid action agent target roll2d4 reachval hidx hag htg hnear hpot
    have hup : agent.use_potion roll2d4 = (agent, 0) := by
      simp only [Entity.use_potion]
      rw [if_neg (by omega)]
    refine ⟨?_, ?_, rfl, rfl, rfl⟩
    · simp only [Game.handle_heal, hidx, hag, htg, hnear, hup]
      have hagent2 : (g.setAgent aEid agent).agents tEid =
          some (if tEid = aEid then agent else target) := by
        by_cases he : tEid = aEid
        · simp [Game.setAgent, he]
        · simp [Game.setAgent, he, htg]
      simp only [hagent2]
      simp
    · intro e
      by_cases he : e = aEid
      · simp [Game.setAgent, he, hag]
      · simp [Game.setAgent, he]
  · intro g aEid tEid action agent target roll2d4 reachval target2 hidx hag htg hnear
      hpot hroll htg2 hfail
    have hup : agent.use_potion roll2d4 = ({ agent with potions := agent.potions - 1 },
        roll2d4 + 2) := by
      simp only [Entity.use_potion]
      rw [if_pos hpot]
    have hpts : roll2d4 + 2 ≠ 0 := by omega
    refine ⟨?_, ?_, ?_, rfl, rfl, rfl⟩
    · simp only [Game.handle_heal, hidx, hag, htg, hnear, hup, htg2]
      rw [if_neg hpts]
      rcases hfail with hdead | hunreach
      · rw [if_pos (by simp [Entity.is_alive, hdead])]
      · cases ha : target2.is_alive
        · rw [if_pos rfl]
        · rw [if_neg (by simp), if_pos hunreach]
    · simp [Game.setAgent]
    · intro e hene
      simp [Game.setAgent, hene]
  · intro g aEid x y hloc
    refine ⟨?_, ?_, ?_, ?_⟩
    · intro hfail
      simp only [Game.handle_up, hloc]
      rw [if_neg ?_]
      intro hc
      rcases hfail with h | h
      · rw [h] at hc
        exact Bool.false_ne_true hc.1
      · exact hc.2 h
    · intro hfail
      simp only [Game.handle_down, hloc]
      rw [if_neg ?_]
      intro hc
      rcases hfail with h | h
      · rw [h] at hc
        exact Bool.false_ne_true hc.1
      · exact hc.2 h
    · intro hfail
      simp only [Game.handle_left, hloc]
      rw [if_neg ?_]
      intro hc
      rcases hfail with h | h
      · rw [h] at hc
        exact Bool.false_ne_true hc.1
      · exact hc.2 h
    · intro hfail
      simp only [Game.handle_right, hloc]
      rw [if_neg ?_]
      intro hc
      rcases hfail with h | h
      · rw [h] at hc
        exact Bool.false_ne_true hc.1
      · exact hc.2 h

/-- C5 witness: the penalty branches exercised on concrete games — attacking
a dead target, attacking a far-away target as a melee attacker, healing with
no potions, healing a dead target with a potion available (which consumes
the potion), and moving off the board or into an occupied cell. -/
theorem penalty_outcomes_witness :
    gHealCex.handle_attack 0 1 15 7 = some (gHealCex, -1) ∧
    gFar.handle_attack 0 1 15 7 = some (gFar, -1) ∧
    gNoPot.handle_heal 0 0 4 = some (gNoPot.setAgent 0 entP0, -1) ∧
    gHealCex.handle_heal 0 1 4 =
      some (gHealCex.setAgent 0 { entP with potions := entP.potions - 1 }, -1) ∧
    gMix.handle_up 0 = some (gMix, -1) ∧
    gMix.handle_right 0 = some (gMix, -1) :=
  ⟨penalty_outcomes.1 gHealCex 0 1 1 entP entDead 15 7 (by decide) (by decide)
      (by decide) (Or.inr (by decide)) (by decide),
   penalty_outcomes.2.1 gFar 0 1 1 entP entE 15 7 (by decide) (by decide) (by decide)
      (by decide) (by decide),
   (penalty_outcomes.2.2.1 gNoPot 0 0 0 entP0 entP0 4 true (by decide) (by decide)
      (by decide) (by decide) (by decide)).1,
   (penalty_outcomes.2.2.2.1 gHealCex 0 1 1 entP entDead 4 true entDead (by decide)
      (by decide) (by decide) (by decide) (by decide) (by decide) (by decide)
      (Or.inl (by decide))).1,
   (penalty_outcomes.2.2.2.2 gMix 0 0 0 (by decide)).1 (Or.inl (by decide)),
   (penalty_outcomes.2.2.2.2 gMix 0 0 0 (by decide)).2.2.2 (Or.inr (by decide))⟩

/-- C5 counterexample: healing the dead enemy while holding one potion gives
reward -1 but consumes the potion (count 1 before, 0 after), so the claimed
"no state change" fails for the heal-dead/unreachable case. -/
theorem heal_consumes_potion_cex :
    (gHealCex.handle_heal 0 1 4).map
        (fun pr => ((pr.1.agents 0).map Entity.potions, pr.2)) = some (some 0, -1) ∧
    (gHealCex.agents 0).map Entity.potions = some 1 := by
  decide

/-- C9 (amended): register fails when the label is not exactly two
characters, when the entity object is already registered, or when the
position is out of bounds or occupied; a label equal to an already-used
label is accepted (there is no collision check); on success the entity gets
the stable index equal to the number of entities registered before it. -/
theorem register_spec (g : Game) (eid : ℤ) (ent : Entity) (x y : ℤ) (label : String) :
    (label.length ≠ 2 → g.add eid ent x y label = none) ∧
    (eid ∈ g.agentsList → g.add eid ent x y label = none) ∧
    (g.board.inbounds x y = false → label.length = 2 → eid ∉ g.agentsList →
      g.add eid ent x y label = none) ∧
    (g.board.inbounds x y = true → (x, y) ∈ g.board.grid → label.length = 2 →
      eid ∉ g.agentsList → g.add eid ent x y label = none) ∧
    (label.length = 2 → eid ∉ g.agentsList → g.board.inbounds x y = true →
      (x, y) ∉ g.board.grid →
      ∃ g2, g.add eid ent x y label = some g2 ∧
        g2.index_to_agent g.n_agents = some eid ∧
        g2.n_agents = g.n_agents + 1 ∧
        g2.labelMap eid = some label ∧ g2.agents eid = some ent ∧
        g2.initialPos eid = some (x, y)) := by
  refine ⟨?_, ?_, ?_, ?_, ?_⟩
  · intro hlen
    simp only [Game.add]
    rw [if_pos hlen]
  · intro hmem
    simp only [Game.add]
    by_cases hlen : label.length ≠ 2
    · rw [if_pos hlen]
    · rw [if_neg hlen, if_pos hmem]
  · intro hib hlen hmem
    simp only [Game.add]
    rw [if_neg (by omega), if_neg hmem]
    have hba : g.board.add eid x y = none := by
      simp only [Board.add]
      rw [if_pos (by rw [hib])]
    rw [hba]
  · intro hib hocc hlen hmem
    simp only [Game.add]
    rw [if_neg (by omega), if_neg hmem]
    have hba : g.board.add eid x y = none := by
      simp only [Board.add]
      rw [if_neg (by rw [hib]; decide), if_pos hocc]
    rw [hba]
  · intro hlen hmem hib hfree
    have hba : g.board.add eid x y =
        some { rows := g.board.rows, cols := g.board.cols,
               grid := insert (x, y) g.board.grid,
               ents := fun p => if p = (x, y) then some eid else g.board.ents p,
               loc := fun e => if e = eid then some (x, y) else g.board.loc e } := by
      simp only [Board.add]
      rw [if_neg (by rw [hib]; decide), if_neg hfree]
    refine ⟨{ g with
              board := { rows := g.board.rows, cols := g.board.cols,
                         grid := insert (x, y) g.board.grid,
                         ents := fun p => if p = (x, y) then some eid else g.board.ents p,
                         loc := fun e => if e = eid then some (x, y) else g.board.loc e }
              agents := fun e => if e = eid then some ent else g.agents e
              agentsList := g.agentsList ++ [eid]
              initialPos := fun e => if e = eid then some (x, y) else g.initialPos e
              labelMap := fun e => if e = eid then some label else g.labelMap e },
      ?_, ?_, ?_, ?_, ?_, ?_⟩
    · simp only [Game.add]
      rw [if_neg (by omega), if_neg hmem, hba]
    · simp only [Game.index_to_agent, Game.n_agents]
      exact List.getElem?_concat_length g.agentsList eid
    · simp only [Game.n_agents, List.length_append, List.length_cons, List.length_nil]
    · simp
    · simp
    · simp

/-- C9 witness: registering an entity on an occupied cell fails, and a
successful registration of handle 7 as the third entity receives index 2. -/
theorem register_spec_witness :
    gMix.add 7 entE 0 1 lblAA = none ∧
    (∃ g2, gMix.add 7 entE 1 1 lblAA = some g2 ∧
      g2.index_to_agent gMix.n_agents = some 7 ∧
      g2.n_agents = gMix.n_agents + 1 ∧
      g2.labelMap 7 = some lblAA ∧ g2.agents 7 = some entE ∧
      g2.initialPos 7 = some (1, 1)) :=
  ⟨(register_spec gMix 7 entE 0 1 lblAA).2.2.2.1 (by decide) (by decide) (by decide)
      (by decide),
   (register_spec gMix 7 entE 1 1 lblAA).2.2.2.2 (by decide) (by decide) (by decide)
      (by decide)⟩

/-- C9 counterexample: two distinct entities registered with the same label
both succeed — the second registration is not rejected, contradicting the
claimed label-collision failure — and the second still gets index 1. -/
theorem register_label_collision_cex :
    (((Game.empty 2 2).add 0 entP 0 0 lblAA).bind
        (fun g1 => g1.add 1 entE 0 1 lblAA)).isSome = true ∧
    (((Game.empty 2 2).add 0 entP 0 0 lblAA).bind
        (fun g1 => g1.labelMap 0)) = some lblAA ∧
    ((((Game.empty 2 2).add 0 entP 0 0 lblAA).bind
        (fun g1 => g1.add 1 entE 0 1 lblAA)).bind
      (fun g2 => g2.index_to_agent 1)) = some 1 := by
  decide

theorem readdAll_frame (l : List ℤ) (g g2 : Game)
    (h : Game.readdAll g l = some g2) :
    g2.agents = g.agents ∧ g2.order = g.order ∧ g2.dead = g.dead ∧
    g2.agentsList = g.agentsList ∧ g2.initialPos = g.initialPos := by
  induction l generalizing g with
  | nil =>
    simp only [Game.readdAll] at h
    obtain rfl := Option.some_inj.mp h
    exact ⟨rfl, rfl, rfl, rfl, rfl⟩
  | cons a rest ih =>
    simp only [Game.readdAll] at h
    split at h
    · exact Option.noConfusion h
    · split at h
      · exact Option.noConfusion h
      · rename_i p hip b2 hba
        exact ih { g with board := b2 } h

theorem readdAll_loc (l : List ℤ) (g g2 : Game)
    (h : Game.readdAll g l = some g2) (hnd : l.Nodup) :
    (∀ e ∈ l, g2.board.loc e = g.initialPos e) ∧
    (∀ e, e ∉ l → g2.board.loc e = g.board.loc e) := by
  induction l generalizing g with
  | nil =>
    simp only [Game.readdAll] at h
    obtain rfl := Option.some_inj.mp h
    exact ⟨fun e he => absurd he (List.not_mem_nil e), fun e _ => rfl⟩
  | cons a rest ih =>
    simp only [Game.readdAll] at h
    split at h
    · exact Option.noConfusion h
    · split at h
      · exact Option.noConfusion h
      · rename_i p hip hscr2 b2 hba
        have hnd2 := List.nodup_cons.mp hnd
        have ihh := ih { g with board := b2 } h hnd2.2
        have hb2 : b2.loc = fun e => if e = a then some (p.1, p.2) else g.board.loc e := by
          simp only [Board.add] at hba
          split at hba
          · exact Option.noConfusion hba
          · split at hba
            · exact Option.noConfusion hba
            · obtain rfl := Option.some_inj.mp hba
              rfl
        refine ⟨?_, ?_⟩
        · intro e he
          rcases List.mem_cons.mp he with rfl | hrest
          · have h1 : g2.board.loc e = b2.loc e := ihh.2 e hnd2.1
            rw [h1, hb2]
            simp [hip]
          · exact ihh.1 e hrest
        · intro e hne
          have hna : e ≠ a := fun hh => hne (hh ▸ List.mem_cons_self a rest)
          have hnr : e ∉ rest := fun hh => hne (List.mem_cons_of_mem a hh)
          have h1 : g2.board.loc e = b2.loc e := ihh.2 e hnr
          rw [h1, hb2]
          simp [hna]

/-- C10: reset rebuilds the board at the recorded initial positions, installs
the shuffled initiative order (rotated once by the initial pop), and clears
the dead set, while leaving every entity's stored state — hit points, potion
count, alive flag — exactly as it was; in particular entities killed in a
previous episode are back on the board at their initial positions and back
in the rotation while their entity state (non-alive, non-positive hp) is
untouched. -/
theorem reset_frame (g : Game) (shuffled : List ℤ) (g2 : Game) (a : ℤ)
    (hperm : shuffled.Perm g.agentsList)
    (hnd : g.agentsList.Nodup)
    (hres : g.reset shuffled = some (g2, a)) :
    (∀ e, g2.agents e = g.agents e) ∧
    g2.dead = [] ∧
    (∀ e : ℤ, e ∈ g2.order ↔ e ∈ g.agentsList) ∧
    (∀ e ∈ g.agentsList, g2.board.loc e = g.initialPos e) ∧
    (∀ e ∈ g.dead, e ∈ g.agentsList → e ∈ g2.order ∧ g2.agents e = g.agents e) := by
  simp only [Game.reset] at hres
  split at hres
  · exact Option.noConfusion hres
  · rename_i gmid hmid
    split at hres
    · exact Option.noConfusion hres
    · rename_i a0 rest hord
      have h2 := Option.some_inj.mp hres
      have hg2 : g2 = { gmid with order := rest ++ [a0] } := (congrArg Prod.fst h2).symm
      subst hg2
      have frames := readdAll_frame g.agentsList _ gmid hmid
      have locs := readdAll_loc g.agentsList _ gmid hmid hnd
      have hagents : ∀ e, ({ gmid with order := rest ++ [a0] } : Game).agents e =
          g.agents e := fun e => congrFun frames.1 e
      have hshuf : shuffled = a0 :: rest := frames.2.1.symm.trans hord
      have horder2 : ∀ e : ℤ,
          e ∈ ({ gmid with order := rest ++ [a0] } : Game).order ↔ e ∈ g.agentsList := by
        intro e
        show e ∈ rest ++ [a0] ↔ e ∈ g.agentsList
        rw [List.mem_append, List.mem_singleton]
        constructor
        · intro he
          apply hperm.mem_iff.mp
          rw [hshuf]
          rcases he with h | h
          · exact List.mem_cons_of_mem a0 h
          · rw [h]
            exact List.mem_cons_self a0 rest
        · intro he
          have hs := hperm.mem_iff.mpr he
          rw [hshuf] at hs
          rcases List.mem_cons.mp hs with h | h
          · exact Or.inr h
          · exact Or.inl h
      refine ⟨hagents, frames.2.2.1, horder2, ?_, ?_⟩
      · intro e he
        exact locs.1 e he
      · intro e hdd he
        exact ⟨(horder2 e).mpr he, hagents e⟩

/-- C10 witness: resetting the game in which the enemy (handle 1) is dead
and off the board, with shuffle outcome [1, 0]: the dead enemy is re-placed
at its initial position and re-enters the rotation while its entity state
(alive = false, hp = -2) is untouched. -/
theorem reset_frame_witness :
    (List.Perm [1, 0] gDeadGame.agentsList ∧ gDeadGame.agentsList.Nodup ∧
      gDeadGame.reset [1, 0] = some (g2C, aC)) ∧
    ((∀ e, g2C.agents e = gDeadGame.agents e) ∧
     g2C.dead = [] ∧
     (∀ e : ℤ, e ∈ g2C.order ↔ e ∈ gDeadGame.agentsList) ∧
     (∀ e ∈ gDeadGame.agentsList, g2C.board.loc e = gDeadGame.initialPos e) ∧
     (∀ e ∈ gDeadGame.dead, e ∈ gDeadGame.agentsList →
        e ∈ g2C.order ∧ g2C.agents e = gDeadGame.agents e)) :=
  ⟨⟨List.Perm.swap 0 1 [], by decide, rfl⟩,
   reset_frame gDeadGame [1, 0] g2C aC (List.Perm.swap 0 1 []) (by decide) rfl⟩

end AutoEnc
